import Mathlib

/-!
Equipment checkout tracker: client-side view logic (`static/app.js`)

A shallow embedding of the pure parts of `static/app.js`: the status label
(`statusLabel`), the person lookup (`personName`), the visible list
(`filteredEquipment`), the HTTP wrapper (`api`) and the reload (`loadData`).

Conventions of the embedding.

* Records follow the data model of the document: an identifier and a name are
  strings, an optional field is an `Option String` (`none` stands for both
  `null` and `undefined`, which the code never tells apart).
* JavaScript truthiness of an optional string: `none` and `some ""` are falsy,
  every other value is truthy.
* A `Date` is carried by its time value: `some ms` (milliseconds since the
  epoch) for a valid date, `none` for an Invalid Date (time value `NaN`).
* `now()` is read as one instant `t` for the duration of one call.
* A string is a sequence of Unicode characters. JavaScript searches UTF-16 code
  units; on well-formed text a match of code units starts and ends on character
  boundaries, so the two searches agree.
* The built-ins whose result the host decides (`String.prototype.toLowerCase`,
  `Date.parse`, the local time zone, `JSON.parse`) are fields of `Runtime`.
-/

namespace EquipmentEllie

/-! ## Host built-ins -/

/-- A JSON value as `JSON.parse` returns it. A number is carried by its string
form (`Number::toString`), `"0"` for both zeros; the fields of an object are in
source order, a later duplicate key overriding an earlier one. -/
inductive Json where
  | null : Json
  | bool (b : Bool) : Json
  | num (shown : String) : Json
  | str (s : String) : Json
  | arr (items : List Json) : Json
  | obj (fields : List (String × Json)) : Json
deriving Repr

/-- The built-ins of the JavaScript host that the program calls. -/
structure Runtime where
  /-- `String.prototype.toLowerCase`. -/
  toLowerCase : String → String
  /-- `Date.parse`: the time value of `new Date(s)`, `none` when it is `NaN`. -/
  dateParse : String → Option Int
  /-- Offset of local time from UTC, in milliseconds, at a UTC time value. -/
  localTZA : Int → Int
  /-- `JSON.parse`: `none` when it throws a `SyntaxError`. -/
  jsonParse : String → Option Json

/-- Milliseconds in a day. -/
def msPerDay : Int := 86400000

/-- The local calendar day (days since the epoch, in local time) of a time
value. `Date.prototype.toDateString` prints weekday, month, day and year of this
day, so two valid dates print the same string exactly when their `localDay` is
the same. -/
def localDay (rt : Runtime) (t : Int) : Int :=
  (t + rt.localTZA t) / msPerDay

/-- Truthiness of an optional string field: absent and empty are falsy. -/
def truthy : Option String → Bool
  | none => false
  | some s => s != ""

/-- Search of `String.prototype.includes` from position 0 on the characters of
the receiver: is `search` a prefix of the text at some position. -/
def includesFrom (search : List Char) : List Char → Bool
  | [] => search.isPrefixOf []
  | c :: rest => search.isPrefixOf (c :: rest) || includesFrom search rest

/-- `s.includes(search)`. -/
def includes (s search : String) : Bool :=
  includesFrom search.data s.data

/-! ## Data model and view state -/

/-- An equipment record as the server sends it. -/
structure Equipment where
  id : String
  name : String
  tag : Option String
  description : Option String
  status : String
  checked_out_to : Option String
  due_at : Option String
deriving DecidableEq, Repr

/-- A person of the roster. -/
structure Person where
  id : String
  name : String
  email : Option String
  role : Option String
deriving DecidableEq, Repr

/-- The module-level `state` object. -/
structure State where
  equipment : List Equipment
  people : List Person
  filter : String
  search : String
  selectedId : Option String
  editingEquipmentId : Option String
  editingPersonId : Option String
deriving DecidableEq, Repr

/-- The initial value of `state`. -/
def State.initial : State :=
  { equipment := [], people := [], filter := "all", search := "",
    selectedId := none, editingEquipmentId := none, editingPersonId := none }

/-- The result of `statusLabel`. -/
structure StatusLabel where
  label : String
  className : String
deriving DecidableEq, Repr

/-! ## Domain derivation -/

/-- `new Date(equipment.due_at)` behind the guard `equipment.due_at ? ... : null`:
the outer `none` is `null`, the inner option is the time value of the date. -/
def dueDate (rt : Runtime) (equipment : Equipment) : Option (Option Int) :=
  if truthy equipment.due_at then
    match equipment.due_at with
    | some iso => some (rt.dateParse iso)
    | none => none
  else none

/-- `due && due < now()`: a relational comparison of time values, false when
`due` is `null` or an Invalid Date. -/
def dueBefore (due : Option (Option Int)) (t : Int) : Bool :=
  match due with
  | some (some d) => decide (d < t)
  | _ => false

/-- `due && due.toDateString() === now().toDateString()`: an Invalid Date prints
`"Invalid Date"`, which no valid date prints. -/
def dueSameDay (rt : Runtime) (due : Option (Option Int)) (t : Int) : Bool :=
  match due with
  | some (some d) => decide (localDay rt d = localDay rt t)
  | _ => false

/-- `statusLabel(equipment)` with `now()` returning `t`. -/
def statusLabel (rt : Runtime) (equipment : Equipment) (t : Int) : StatusLabel :=
  if equipment.status != "checked_out" then
    { label := "Available", className := "status-available" }
  else
    let due := dueDate rt equipment
    if dueBefore due t then
      { label := "Overdue", className := "status-overdue" }
    else
      let soon := dueSameDay rt due t
      if soon then
        { label := "Due today", className := "status-due" }
      else
        { label := "Checked out", className := "status-checked_out" }

/-- `personName(personId)`: `state.people.find((p) => p.id === personId)`, then
the name of the person found or `""`. A missing id is strictly equal to no
string id. -/
def personName (state : State) (personId : Option String) : String :=
  let person := state.people.find? (fun p => decide (some p.id = personId))
  match person with
  | some p => p.name
  | none => ""

/-! ## Filter and search -/

/-- The `matchesSearch` test of `filteredEquipment`, `search` already
lower-cased. -/
def matchesSearch (rt : Runtime) (state : State) (search : String)
    (item : Equipment) : Bool :=
  includes (rt.toLowerCase item.name) search ||
  includes (rt.toLowerCase (if truthy item.tag then item.tag.getD "" else "")) search ||
  includes (rt.toLowerCase (personName state item.checked_out_to)) search

/-- The callback passed to `state.equipment.filter` in `filteredEquipment`, its
result read for truthiness. -/
def keepItem (rt : Runtime) (state : State) (t : Int) (search : String)
    (item : Equipment) : Bool :=
  if !matchesSearch rt state search item then false
  else if state.filter == "all" then true
  else if state.filter == "available" then item.status == "available"
  else if state.filter == "checked_out" then item.status == "checked_out"
  else if state.filter == "overdue" then
    item.status == "checked_out" && truthy item.due_at &&
      dueBefore (item.due_at.map rt.dateParse) t
  else true

/-- `filteredEquipment()` with `now()` returning `t`. -/
def filteredEquipment (rt : Runtime) (state : State) (t : Int) : List Equipment :=
  let search := rt.toLowerCase state.search
  state.equipment.filter (keepItem rt state t search)

/-! ## API client -/

/-- The part of a `fetch` response that `api` reads: `response.ok` and the body
text delivered by `response.text()`. -/
structure Response where
  ok : Bool
  text : String
deriving DecidableEq, Repr

/-- What makes the promise of `api` reject. -/
inductive Thrown where
  /-- The promise of `fetch` or of `response.text()` rejected; `api` does not
  catch it. -/
  | rejected (reason : String) : Thrown
  /-- The `Error` built by `new Error(...)` on a non-success status, with its
  message. -/
  | error (message : String) : Thrown
  /-- The `TypeError` that `new Error(...)` throws when its argument cannot be
  converted to a string; its message is the host's. -/
  | typeError : Thrown
deriving DecidableEq, Repr

/-- Truthiness of a JSON value. -/
def Json.truthy : Json → Bool
  | .null => false
  | .bool b => b
  | .num shown => shown != "0"
  | .str s => s != ""
  | .arr _ => true
  | .obj _ => true

/-- The last binding of `key` among the fields of an object. -/
def lookupField (key : String) : List (String × Json) → Option Json
  | [] => none
  | (k, v) :: rest =>
    match lookupField key rest with
    | some later => some later
    | none => if k = key then some v else none

/-- `data.error` for a truthy `data`; `none` is `undefined`. Only a parsed
object can own the property. -/
def Json.error : Json → Option Json
  | .obj fields => lookupField "error" fields
  | _ => none

/-- `a && b` where `b` is a property read of `a`: the falsy `a` itself, else the
property (`none` is `undefined`). -/
def andProperty (a : Json) (property : Json → Option Json) : Option Json :=
  if a.truthy then property a else some a

/-- `a || b` with a string on the right. -/
def orString (a : Option Json) (b : String) : Json :=
  match a with
  | some v => if v.truthy then v else .str b
  | none => .str b

mutual
/-- The conversion `ToString(v)`, `none` when it throws a `TypeError`. An array is
joined with commas. A parsed object has no callable property of its own: without
an own `toString` key it prints through `Object.prototype.toString`; with one,
neither `toString` nor `valueOf` yields a primitive and the conversion throws. -/
def Json.toStr : Json → Option String
  | .null => some "null"
  | .bool b => some (if b then "true" else "false")
  | .num shown => some shown
  | .str s => some s
  | .arr items => (Json.elements items).map (fun parts => ",".intercalate parts)
  | .obj fields =>
    if fields.any (fun field => field.1 == "toString") then none
    else some "[object Object]"
/-- The strings that `Array.prototype.join` puts together: `""` for a `null`
element, the string conversion of any other. -/
def Json.elements : List Json → Option (List String)
  | [] => some []
  | .null :: rest => (Json.elements rest).map (fun parts => "" :: parts)
  | item :: rest =>
    match Json.toStr item with
    | none => none
    | some first => (Json.elements rest).map (fun parts => first :: parts)
end

/-- What `throw new Error(argument)` throws: the constructor converts its
argument to a string for the message. -/
def newError (argument : Json) : Thrown :=
  match argument.toStr with
  | some message => .error message
  | none => .typeError

/-- `api(path, options)`, as a function of what `fetch` delivered. -/
def api (rt : Runtime) (fetched : Except String Response) : Except Thrown Json :=
  match fetched with
  | .error reason => .error (.rejected reason)
  | .ok response =>
    let text := response.text
    let data : Json :=
      if text != "" then
        match rt.jsonParse text with
        | some parsed => parsed
        | none => .null
      else .null
    if !response.ok then
      let first := orString (andProperty data Json.error) text
      .error (newError (orString (some first) "Something went wrong"))
    else .ok data

/-! ## Reload -/

/-- The toast set by `showToast(message, isError)`. -/
structure Toast where
  message : String
  isError : Bool
deriving DecidableEq, Repr

/-- `showToast(message, isError)`: the text and the colour of the toast. -/
def showToast (message : String) (isError : Bool) : Toast :=
  { message := message, isError := isError }

/-- The `try` block of `loadData`: the state reached, and whether one of the two
awaited `api` calls threw. The second request is made only after the first
succeeded, and the first assignment is already done when the second throws. -/
def loadDataTry {ε : Type} (state : State)
    (equipmentResult : Except ε (List Equipment))
    (peopleResult : Except ε (List Person)) : State × Bool :=
  match equipmentResult with
  | .error _ => (state, true)
  | .ok equipment =>
    let state1 := { state with equipment := equipment }
    match peopleResult with
    | .error _ => (state1, true)
    | .ok people => ({ state1 with people := people }, false)

/-- `loadData()`, as a function of the outcomes of its two `api` calls, the
payload of a success being typed by the contract of the endpoint. The final
`render()` reads the state and writes the document; it leaves the state as it
is. -/
def loadData {ε : Type} (state : State)
    (equipmentResult : Except ε (List Equipment))
    (peopleResult : Except ε (List Person)) : State × Option Toast :=
  match loadDataTry state equipmentResult peopleResult with
  | (reached, true) =>
    ({ reached with equipment := [], people := [] },
      some (showToast "API unavailable. Showing empty state." true))
  | (reached, false) => (reached, none)

/-! ## A concrete host for evaluation -/

/-- Lower-casing of the ASCII letters, which is what `toLowerCase` does on ASCII
text. -/
def asciiLower (s : String) : String :=
  String.mk (s.data.map Char.toLower)

/-- A host in the UTC time zone. Lower-casing is done on ASCII letters; the date
and JSON parsers know the few texts used in the examples below and answer as
`Date.parse` and `JSON.parse` do on them. -/
def sampleRuntime : Runtime where
  toLowerCase := asciiLower
  dateParse := fun s =>
    if s = "1970-01-01T00:00:00.000Z" then some 0
    else if s = "1970-01-01T12:00:00.000Z" then some 43200000
    else if s = "1970-01-01T18:00:00.000Z" then some 64800000
    else if s = "1970-01-02T00:00:00.000Z" then some 86400000
    else none
  localTZA := fun _ => 0
  jsonParse := fun s =>
    if s = "\x7b\"error\":\"\"\x7d" then some (.obj [("error", .str "")])
    else if s = "\x7b\"error\":\"Not found\"\x7d" then
      some (.obj [("error", .str "Not found")])
    else if s = "\x7b\"error\":\x7b\"toString\":1\x7d\x7d" then
      some (.obj [("error", .obj [("toString", .num "1")])])
    else none

/-- The drill of the scenarios, available. -/
def drill : Equipment :=
  { id := "e1", name := "Drill", tag := none, description := none,
    status := "available", checked_out_to := none, due_at := none }

/-- The drill checked out to `p1`, due at noon of 1 January 1970 (UTC). -/
def drillOut : Equipment :=
  { drill with status := "checked_out", checked_out_to := some "p1",
               due_at := some "1970-01-01T12:00:00.000Z" }

/-- Alice, person `p1`. -/
def alice : Person :=
  { id := "p1", name := "Alice", email := none, role := none }

/-- The state of the scenarios: the drill available and the drill checked out to
Alice, with the given filter and search text. -/
def sampleState (filter search : String) : State :=
  { State.initial with equipment := [drill, drillOut], people := [alice],
                       filter := filter, search := search }

/-- The body of an error response whose `error` field is the empty string. -/
def emptyErrorBody : String := "\x7b\"error\":\"\"\x7d"

/-- The body of an error response whose `error` field is an object with a
`toString` key. -/
def unprintableErrorBody : String := "\x7b\"error\":\x7b\"toString\":1\x7d\x7d"

/-- The body of an error response with the message `Not found`. -/
def notFoundBody : String := "\x7b\"error\":\"Not found\"\x7d"

/-! ## Helper lemmas -/

theorem includesFrom_iff (search text : List Char) :
    includesFrom search text = true ↔ search <:+: text := by
  induction text with
  | nil => simp [includesFrom]
  | cons c rest ih =>
    simp only [includesFrom, Bool.or_eq_true, ih, List.infix_cons_iff,
      List.isPrefixOf_iff_prefix]

theorem includes_iff (s search : String) :
    includes s search = true ↔ search.data <:+: s.data := by
  simp [includes, includesFrom_iff]

theorem includes_empty (s : String) : includes s "" = true := by
  rw [includes_iff]
  exact List.nil_infix

theorem dueDate_of_present (rt : Runtime) (e : Equipment) (iso : String)
    (hdue : e.due_at = some iso) (hne : iso ≠ "") :
    dueDate rt e = some (rt.dateParse iso) := by
  simp [dueDate, hdue, truthy, hne]

theorem dueDate_of_absent (rt : Runtime) (e : Equipment)
    (h : e.due_at = none ∨ e.due_at = some "") : dueDate rt e = none := by
  rcases h with h | h <;> simp [dueDate, h, truthy]

/-! ## Status label -/

/-- C1: for a checked-out equipment whose due date is present and is the valid
date `d`, `statusLabel` at reference time `t` is Overdue (class
`status-overdue`) exactly when `d < t`; so a due date earlier than `t` on the
calendar day of `t` is Overdue and not Due today, and `d = t` is not Overdue. -/
theorem statusLabel_overdue_iff (rt : Runtime) (e : Equipment) (t : Int)
    (iso : String) (d : Int)
    (hstatus : e.status = "checked_out") (hdue : e.due_at = some iso)
    (hne : iso ≠ "") (hd : rt.dateParse iso = some d) :
    (statusLabel rt e t = ⟨"Overdue", "status-overdue"⟩ ↔ d < t) ∧
    ((statusLabel rt e t).label = "Overdue" ↔ d < t) ∧
    (localDay rt d = localDay rt t → d < t →
      statusLabel rt e t = ⟨"Overdue", "status-overdue"⟩ ∧
      (statusLabel rt e t).label ≠ "Due today") ∧
    (d = t → (statusLabel rt e t).label ≠ "Overdue") := by
  have hdate := dueDate_of_present rt e iso hdue hne
  by_cases hlt : d < t
  · have hval : statusLabel rt e t = ⟨"Overdue", "status-overdue"⟩ := by
      simp [statusLabel, hstatus, hdate, hd, dueBefore, hlt]
    refine ⟨by simp [hval, hlt], by simp [hval, hlt], fun _ _ => ⟨hval, ?_⟩, ?_⟩
    · rw [hval]; decide
    · intro heq; omega
  · have hval : statusLabel rt e t = ⟨"Due today", "status-due"⟩ ∨
        statusLabel rt e t = ⟨"Checked out", "status-checked_out"⟩ := by
      by_cases hday : localDay rt d = localDay rt t
      · left; simp [statusLabel, hstatus, hdate, hd, dueBefore, dueSameDay, hlt, hday]
      · right; simp [statusLabel, hstatus, hdate, hd, dueBefore, dueSameDay, hlt, hday]
    rcases hval with hval | hval
    · refine ⟨?_, ?_, fun _ h => absurd h hlt, fun _ => ?_⟩
      · rw [hval]; simp [hlt]
      · rw [hval]; simp [hlt]
      · rw [hval]; decide
    · refine ⟨?_, ?_, fun _ h => absurd h hlt, fun _ => ?_⟩
      · rw [hval]; simp [hlt]
      · rw [hval]; simp [hlt]
      · rw [hval]; decide

/-- Witness of C1: the drill due at noon, looked at six hours later the same
day. -/
theorem statusLabel_overdue_iff_witness :
    (statusLabel sampleRuntime drillOut 64800000 = ⟨"Overdue", "status-overdue"⟩ ↔
      (43200000 : Int) < 64800000) ∧
    ((statusLabel sampleRuntime drillOut 64800000).label = "Overdue" ↔
      (43200000 : Int) < 64800000) ∧
    (localDay sampleRuntime 43200000 = localDay sampleRuntime 64800000 →
      (43200000 : Int) < 64800000 →
      statusLabel sampleRuntime drillOut 64800000 = ⟨"Overdue", "status-overdue"⟩ ∧
      (statusLabel sampleRuntime drillOut 64800000).label ≠ "Due today") ∧
    ((43200000 : Int) = 64800000 →
      (statusLabel sampleRuntime drillOut 64800000).label ≠ "Overdue") :=
  statusLabel_overdue_iff sampleRuntime drillOut 64800000
    "1970-01-01T12:00:00.000Z" 43200000 (by decide) (by decide) (by decide) (by decide)

/-- C2: for a checked-out equipment whose due date is present and is the valid
date `d`, on the local calendar day of `t` and not before `t`, `statusLabel` is
Due today with class `status-due`. -/
theorem statusLabel_due_today (rt : Runtime) (e : Equipment) (t : Int)
    (iso : String) (d : Int)
    (hstatus : e.status = "checked_out") (hdue : e.due_at = some iso)
    (hne : iso ≠ "") (hd : rt.dateParse iso = some d)
    (hday : localDay rt d = localDay rt t) (hge : d ≥ t) :
    statusLabel rt e t = ⟨"Due today", "status-due"⟩ := by
  have hdate := dueDate_of_present rt e iso hdue hne
  have hlt : ¬ d < t := by omega
  simp [statusLabel, hstatus, hdate, hd, dueBefore, dueSameDay, hlt, hday]

/-- Witness of C2: the drill due at noon, looked at in the first instant of that
day. -/
theorem statusLabel_due_today_witness :
    statusLabel sampleRuntime drillOut 0 = ⟨"Due today", "status-due"⟩ :=
  statusLabel_due_today sampleRuntime drillOut 0 "1970-01-01T12:00:00.000Z" 43200000
    (by decide) (by decide) (by decide) (by decide) (by decide) (by decide)

/-- C3: without a due date to compare, `statusLabel` is the same at every
reference time: a status of `available` gives Available (class
`status-available`) whatever `due_at` and `checked_out_to` hold, and a status of
`checked_out` with no due date (absent or empty) gives Checked out (class
`status-checked_out`). -/
theorem statusLabel_time_independent (rt : Runtime) (t : Int) :
    (∀ e : Equipment, e.status = "available" →
      statusLabel rt e t = ⟨"Available", "status-available"⟩) ∧
    (∀ e : Equipment, e.status = "checked_out" →
      (e.due_at = none ∨ e.due_at = some "") →
      statusLabel rt e t = ⟨"Checked out", "status-checked_out"⟩) := by
  constructor
  · intro e hstatus
    simp [statusLabel, hstatus]
  · intro e hstatus hdue
    have hdate := dueDate_of_absent rt e hdue
    simp [statusLabel, hstatus, hdate, dueBefore, dueSameDay]

/-- Witness of C3: the drill is Available at time 0, and a drill checked out
with no due date is Checked out. -/
theorem statusLabel_time_independent_witness :
    statusLabel sampleRuntime drill 0 = ⟨"Available", "status-available"⟩ ∧
    statusLabel sampleRuntime { drillOut with due_at := none } 0 =
      ⟨"Checked out", "status-checked_out"⟩ :=
  ⟨(statusLabel_time_independent sampleRuntime 0).1 drill (by decide),
   (statusLabel_time_independent sampleRuntime 0).2 { drillOut with due_at := none }
     (by decide) (Or.inl rfl)⟩

/-! ## Filter and search -/

theorem tag_or_empty (tag : Option String) :
    (if truthy tag then tag.getD "" else "") = tag.getD "" := by
  cases tag with
  | none => simp [truthy]
  | some s =>
    by_cases h : s = ""
    · simp [truthy, h]
    · simp [truthy, h]

theorem matchesSearch_iff (rt : Runtime) (state : State) (search : String)
    (item : Equipment) :
    matchesSearch rt state search item = true ↔
      (search.data <:+: (rt.toLowerCase item.name).data ∨
       search.data <:+: (rt.toLowerCase (item.tag.getD "")).data ∨
       search.data <:+:
         (rt.toLowerCase (personName state item.checked_out_to)).data) := by
  simp only [matchesSearch, tag_or_empty, Bool.or_eq_true, includes_iff, or_assoc]

theorem keepItem_all (rt : Runtime) (state : State) (t : Int) (search : String)
    (item : Equipment) (hfilter : state.filter = "all") :
    keepItem rt state t search item = matchesSearch rt state search item := by
  cases h : matchesSearch rt state search item <;> simp [keepItem, hfilter, h]

theorem overdueTest_iff (rt : Runtime) (t : Int) (item : Equipment) :
    (item.status == "checked_out" && truthy item.due_at &&
        dueBefore (item.due_at.map rt.dateParse) t) = true ↔
      (item.status = "checked_out" ∧
       ∃ iso d, item.due_at = some iso ∧ iso ≠ "" ∧ rt.dateParse iso = some d ∧ d < t) := by
  cases hdue : item.due_at with
  | none => simp [truthy]
  | some iso =>
    cases hd : rt.dateParse iso with
    | none => simp [truthy, dueBefore, hd]
    | some d => simp [truthy, dueBefore, hd, and_assoc]

/-- C4: with the filter set to `overdue`, an item of the equipment list is in
the result of `filteredEquipment` exactly when it passes the search match, its
status is `checked_out`, and its due date is present and strictly before the
reference time `t`; so every returned item is checked out with due date before
`t`. -/
theorem filteredEquipment_overdue_iff (rt : Runtime) (state : State) (t : Int)
    (hfilter : state.filter = "overdue") :
    (∀ item : Equipment, item ∈ filteredEquipment rt state t ↔
      (item ∈ state.equipment ∧
       matchesSearch rt state (rt.toLowerCase state.search) item = true ∧
       item.status = "checked_out" ∧
       ∃ iso d, item.due_at = some iso ∧ iso ≠ "" ∧
         rt.dateParse iso = some d ∧ d < t)) ∧
    (∀ item ∈ filteredEquipment rt state t,
      item.status = "checked_out" ∧
      ∃ d, dueDate rt item = some (some d) ∧ d < t) := by
  have key : ∀ item : Equipment, item ∈ filteredEquipment rt state t ↔
      (item ∈ state.equipment ∧
       matchesSearch rt state (rt.toLowerCase state.search) item = true ∧
       item.status = "checked_out" ∧
       ∃ iso d, item.due_at = some iso ∧ iso ≠ "" ∧
         rt.dateParse iso = some d ∧ d < t) := by
    intro item
    have hkeep : keepItem rt state t (rt.toLowerCase state.search) item =
        (matchesSearch rt state (rt.toLowerCase state.search) item &&
          (item.status == "checked_out" && truthy item.due_at &&
            dueBefore (item.due_at.map rt.dateParse) t)) := by
      cases h : matchesSearch rt state (rt.toLowerCase state.search) item <;>
        simp [keepItem, hfilter, h]
    rw [filteredEquipment, List.mem_filter, hkeep, Bool.and_eq_true, overdueTest_iff]
  refine ⟨key, ?_⟩
  intro item hmem
  obtain ⟨_, _, hstatus, iso, d, hdue, hne, hd, hlt⟩ := (key item).1 hmem
  exact ⟨hstatus, d, by rw [dueDate_of_present rt item iso hdue hne, hd], hlt⟩

/-- Witness of C4: at 18:00 the drill due at noon is the overdue list. -/
theorem filteredEquipment_overdue_iff_witness :
    drillOut ∈ filteredEquipment sampleRuntime (sampleState "overdue" "") 64800000 ∧
    drill ∉ filteredEquipment sampleRuntime (sampleState "overdue" "") 64800000 :=
  ⟨((filteredEquipment_overdue_iff sampleRuntime (sampleState "overdue" "") 64800000
      (by decide)).1 drillOut).2
      ⟨by decide, by decide, by decide,
        "1970-01-01T12:00:00.000Z", 43200000, by decide, by decide, by decide, by decide⟩,
   fun h => absurd
     ((filteredEquipment_overdue_iff sampleRuntime (sampleState "overdue" "") 64800000
       (by decide)).2 drill h).1 (by decide)⟩

/-- C5: with the filter set to `all`, an item of the equipment list is in the
result of `filteredEquipment` exactly when the lower-cased search text is a
substring of the lower-cased name, of the lower-cased tag (`""` when absent) or
of the lower-cased name of the person the item is checked out to (`""` when
there is none). Hence, lower-casing keeping `""`, the empty search shows every
item; and, `ali` and `Alice` lower-casing to `ali` and `alice`, the search `ali`
shows every item checked out to a person named Alice, whatever its name and
tag. -/
theorem filteredEquipment_all_iff (rt : Runtime) (state : State) (t : Int)
    (hfilter : state.filter = "all") :
    (∀ item : Equipment, item ∈ filteredEquipment rt state t ↔
      (item ∈ state.equipment ∧
       ((rt.toLowerCase state.search).data <:+: (rt.toLowerCase item.name).data ∨
        (rt.toLowerCase state.search).data <:+:
          (rt.toLowerCase (item.tag.getD "")).data ∨
        (rt.toLowerCase state.search).data <:+:
          (rt.toLowerCase (personName state item.checked_out_to)).data))) ∧
    (state.search = "" → rt.toLowerCase "" = "" →
      ∀ item ∈ state.equipment, item ∈ filteredEquipment rt state t) ∧
    (state.search = "ali" → rt.toLowerCase "ali" = "ali" →
      rt.toLowerCase "Alice" = "alice" →
      ∀ item ∈ state.equipment, personName state item.checked_out_to = "Alice" →
        item ∈ filteredEquipment rt state t) := by
  have key : ∀ item : Equipment, item ∈ filteredEquipment rt state t ↔
      (item ∈ state.equipment ∧
       ((rt.toLowerCase state.search).data <:+: (rt.toLowerCase item.name).data ∨
        (rt.toLowerCase state.search).data <:+:
          (rt.toLowerCase (item.tag.getD "")).data ∨
        (rt.toLowerCase state.search).data <:+:
          (rt.toLowerCase (personName state item.checked_out_to)).data)) := by
    intro item
    rw [filteredEquipment, List.mem_filter, keepItem_all rt state t _ item hfilter,
      matchesSearch_iff]
  refine ⟨key, ?_, ?_⟩
  · intro hsearch hlower item hmem
    refine (key item).2 ⟨hmem, Or.inl ?_⟩
    rw [hsearch, hlower]
    exact List.nil_infix
  · intro hsearch hali hAlice item hmem hperson
    refine (key item).2 ⟨hmem, Or.inr (Or.inr ?_)⟩
    rw [hsearch, hali, hperson, hAlice]
    exact ⟨[], ['c', 'e'], rfl⟩

/-- Witness of C5: searching `ali`, the drill checked out to Alice is shown and
the available drill is not. -/
theorem filteredEquipment_all_iff_witness :
    drillOut ∈ filteredEquipment sampleRuntime (sampleState "all" "ali") 0 ∧
    drill ∉ filteredEquipment sampleRuntime (sampleState "all" "ali") 0 :=
  ⟨(filteredEquipment_all_iff sampleRuntime (sampleState "all" "ali") 0 (by decide)).2.2
      (by decide) (by decide) (by decide) drillOut (by decide) (by decide),
   by decide⟩

/-- C6: with the empty search text and the filter `all`, lower-casing keeping
`""`, `filteredEquipment` returns the equipment list itself: the same items, as
many times, in the same order. -/
theorem filteredEquipment_all_empty (rt : Runtime) (state : State) (t : Int)
    (hfilter : state.filter = "all") (hsearch : state.search = "")
    (hlower : rt.toLowerCase "" = "") :
    filteredEquipment rt state t = state.equipment := by
  rw [filteredEquipment, List.filter_eq_self]
  intro item _
  rw [keepItem_all rt state t _ item hfilter, hsearch, hlower]
  simp [matchesSearch, includes_empty]

/-- Witness of C6: the list holding only the drill is returned as it is. -/
theorem filteredEquipment_all_empty_witness :
    filteredEquipment sampleRuntime { State.initial with equipment := [drill] } 0 =
      [drill] :=
  filteredEquipment_all_empty sampleRuntime { State.initial with equipment := [drill] } 0
    (by decide) (by decide) (by decide)

/-- C7: for every state (any filter string, any search text) and reference time,
the result of `filteredEquipment` is a sublist of the equipment list: its items
are items of the input, none more often than in the input, in their original
relative order. -/
theorem filteredEquipment_sublist (rt : Runtime) (state : State) (t : Int) :
    List.Sublist (filteredEquipment rt state t) state.equipment ∧
    (∀ item ∈ filteredEquipment rt state t, item ∈ state.equipment) ∧
    (∀ item : Equipment,
      (filteredEquipment rt state t).count item ≤ state.equipment.count item) := by
  have hsub : List.Sublist (filteredEquipment rt state t) state.equipment :=
    List.filter_sublist _
  exact ⟨hsub, fun item hmem => hsub.subset hmem, fun item => hsub.count_le item⟩

/-! ## Person lookup -/

/-- C9: `personName` is a total function of the people list and the id: it
returns the name of the first person of the list whose id is the given one, and
`""` when no person has that id or no id is given. -/
theorem personName_spec (state : State) :
    personName state none = "" ∧
    (∀ personId : String, (∀ p ∈ state.people, p.id ≠ personId) →
      personName state (some personId) = "") ∧
    (∀ (personId : String) (before after : List Person) (p : Person),
      state.people = before ++ p :: after → p.id = personId →
      (∀ q ∈ before, q.id ≠ personId) →
      personName state (some personId) = p.name) := by
  refine ⟨?_, ?_, ?_⟩
  · have h : state.people.find? (fun p => decide (some p.id = none)) = none := by
      simp
    rw [personName, h]
  · intro personId hnone
    have h : state.people.find? (fun p => decide (some p.id = some personId)) = none := by
      simpa using hnone
    rw [personName, h]
  · intro personId before after p hpeople hid hbefore
    have h1 : before.find? (fun p => decide (some p.id = some personId)) = none := by
      simpa using hbefore
    have h : state.people.find? (fun p => decide (some p.id = some personId)) = some p := by
      rw [hpeople, List.find?_append, h1, Option.none_or, List.find?_cons_of_pos]
      simp [hid]
    rw [personName, h]

/-- Witness of C9: in a list with two persons of id `p1`, the first one is
named; an unknown id gives the empty string. -/
theorem personName_spec_witness :
    personName { State.initial with
        people := [{ alice with id := "p0", name := "Zed" }, alice,
                   { alice with name := "Alicia" }] } (some "p1") = "Alice" ∧
    personName (sampleState "all" "") (some "p9") = "" :=
  ⟨(personName_spec { State.initial with
        people := [{ alice with id := "p0", name := "Zed" }, alice,
                   { alice with name := "Alicia" }] }).2.2 "p1"
      [{ alice with id := "p0", name := "Zed" }] [{ alice with name := "Alicia" }] alice
      rfl rfl (by decide),
   (personName_spec (sampleState "all" "")).2.1 "p9" (by decide)⟩

/-! ## Reload -/

/-- C10: when at least one of the two load requests fails (the first, or the
second after the first succeeded), `loadData` ends with `state.equipment` and
`state.people` both empty and with `filter`, `search` and `selectedId` (and the
editing targets) as they were; it is a total function, and it shows the error
toast. -/
theorem loadData_failure {ε : Type} (state : State)
    (equipmentResult : Except ε (List Equipment))
    (peopleResult : Except ε (List Person))
    (hfail : (∃ e, equipmentResult = .error e) ∨ (∃ e, peopleResult = .error e)) :
    (loadData state equipmentResult peopleResult).1 =
      { state with equipment := [], people := [] } ∧
    (loadData state equipmentResult peopleResult).1.equipment = [] ∧
    (loadData state equipmentResult peopleResult).1.people = [] ∧
    (loadData state equipmentResult peopleResult).1.filter = state.filter ∧
    (loadData state equipmentResult peopleResult).1.search = state.search ∧
    (loadData state equipmentResult peopleResult).1.selectedId = state.selectedId ∧
    (loadData state equipmentResult peopleResult).2 =
      some ⟨"API unavailable. Showing empty state.", true⟩ := by
  have hval : loadData state equipmentResult peopleResult =
      ({ state with equipment := [], people := [] },
        some ⟨"API unavailable. Showing empty state.", true⟩) := by
    cases equipmentResult with
    | error e => simp [loadData, loadDataTry, showToast]
    | ok equipment =>
      cases peopleResult with
      | error e => simp [loadData, loadDataTry, showToast]
      | ok people =>
        rcases hfail with ⟨e, h⟩ | ⟨e, h⟩ <;> cases h
  simp [hval]

/-- Witness of C10: the equipment request succeeds, the people request fails,
and a selection and a filter are in place. -/
theorem loadData_failure_witness :
    (loadData { sampleState "overdue" "dr" with selectedId := some "e1" }
      (Except.ok [drill] : Except String (List Equipment))
      (Except.error "Something went wrong")).1 =
      { sampleState "overdue" "dr" with
          selectedId := some "e1", equipment := [], people := [] } :=
  (loadData_failure { sampleState "overdue" "dr" with selectedId := some "e1" }
    (Except.ok [drill] : Except String (List Equipment))
    (Except.error "Something went wrong") (Or.inr ⟨_, rfl⟩)).1

/-! ## API client -/

theorem orString_of_truthy (v : Json) (b : String) (h : v.truthy = true) :
    orString (some v) b = v := by
  simp [orString, h]

theorem orString_of_falsy (v : Json) (b : String) (h : v.truthy = false) :
    orString (some v) b = .str b := by
  simp [orString, h]

theorem str_truthy (s : String) (h : s ≠ "") : (Json.str s).truthy = true := by
  simp [Json.truthy, h]

/-- The value of `(data && data.error) || text` when no truthy `error` field is
read from `data`. -/
theorem first_of_no_error (data : Json) (text : String)
    (h : ∀ fields v, data = .obj fields → lookupField "error" fields = some v →
      v.truthy = false) :
    orString (andProperty data Json.error) text = .str text := by
  cases data with
  | obj fields =>
    cases hfield : lookupField "error" fields with
    | none => simp [andProperty, Json.truthy, Json.error, hfield, orString]
    | some v =>
      have hv := h fields v rfl hfield
      have hand : andProperty (.obj fields) Json.error = some v := by
        simp [andProperty, Json.truthy, Json.error, hfield]
      rw [hand, orString_of_falsy v text hv]
  | null => simp [andProperty, Json.truthy, orString]
  | bool b => cases b <;> simp [andProperty, Json.truthy, Json.error, orString]
  | num shown =>
    by_cases hz : shown = "0" <;> simp [andProperty, Json.truthy, Json.error, orString, hz]
  | str s =>
    by_cases hz : s = "" <;> simp [andProperty, Json.truthy, Json.error, orString, hz]
  | arr items => simp [andProperty, Json.truthy, Json.error, orString]

theorem newError_str (s : String) : newError (.str s) = .error s := by
  simp [newError, Json.toStr]

/-- The argument of `new Error(...)` when a truthy `error` field is read. -/
theorem argument_of_error (fields : List (String × Json)) (v : Json) (text : String)
    (hfield : lookupField "error" fields = some v) (hv : v.truthy = true) :
    orString (some (orString (andProperty (.obj fields) Json.error) text))
      "Something went wrong" = v := by
  have hand : andProperty (.obj fields) Json.error = some v := by
    simp [andProperty, Json.truthy, Json.error, hfield]
  rw [hand, orString_of_truthy v _ hv, orString_of_truthy v _ hv]

/-- C8, as the code has it: on a non-success status `api` always throws, for
every body text. When the body parses to an object whose `error` field is
present and truthy, the message of the error is the string conversion of that
field: the field itself when it is a string (then not empty); when the field
cannot be converted to a string, the `TypeError` of the conversion is thrown in
place of the error. In every other case, a body that is not valid JSON included,
the message is the raw text when the text is not empty, and
`"Something went wrong"` when the text is empty. -/
theorem api_failure_message (rt : Runtime) (text : String) :
    (∃ thrown, api rt (.ok ⟨false, text⟩) = .error thrown) ∧
    (∀ fields s, text ≠ "" → rt.jsonParse text = some (.obj fields) →
      lookupField "error" fields = some (.str s) → s ≠ "" →
      api rt (.ok ⟨false, text⟩) = .error (.error s)) ∧
    (∀ fields v message, text ≠ "" → rt.jsonParse text = some (.obj fields) →
      lookupField "error" fields = some v → v.truthy = true →
      v.toStr = some message →
      api rt (.ok ⟨false, text⟩) = .error (.error message)) ∧
    (∀ fields v, text ≠ "" → rt.jsonParse text = some (.obj fields) →
      lookupField "error" fields = some v → v.truthy = true → v.toStr = none →
      api rt (.ok ⟨false, text⟩) = .error .typeError) ∧
    (text ≠ "" →
      (∀ fields v, rt.jsonParse text = some (.obj fields) →
        lookupField "error" fields = some v → v.truthy = false) →
      api rt (.ok ⟨false, text⟩) = .error (.error text)) ∧
    (text ≠ "" → rt.jsonParse text = none →
      api rt (.ok ⟨false, text⟩) = .error (.error text)) ∧
    (text = "" →
      api rt (.ok ⟨false, text⟩) = .error (.error "Something went wrong")) := by
  have hyes : ∀ fields v, text ≠ "" → rt.jsonParse text = some (.obj fields) →
      lookupField "error" fields = some v → v.truthy = true →
      api rt (.ok ⟨false, text⟩) = .error (newError v) := by
    intro fields v hne hparse hfield hv
    simp only [api, hne, hparse, argument_of_error fields v text hfield hv, bne_iff_ne,
      ne_eq, not_false_eq_true, ite_true, Bool.not_false]
  have hno : text ≠ "" →
      (∀ fields v, rt.jsonParse text = some (.obj fields) →
        lookupField "error" fields = some v → v.truthy = false) →
      api rt (.ok ⟨false, text⟩) = .error (.error text) := by
    intro hne hfalsy
    cases hparse : rt.jsonParse text with
    | none =>
      simp [api, hne, hparse, first_of_no_error, orString_of_truthy, str_truthy,
        newError_str]
    | some parsed =>
      have hfirst : orString (andProperty parsed Json.error) text = .str text :=
        first_of_no_error parsed text (fun fields v hp hf =>
          hfalsy fields v (by rw [hparse, hp]) hf)
      simp [api, hne, hparse, hfirst, orString_of_truthy, str_truthy, newError_str]
  refine ⟨⟨_, rfl⟩, ?_, ?_, ?_, hno, ?_, ?_⟩
  · intro fields s hne hparse hfield hs
    rw [hyes fields (.str s) hne hparse hfield (str_truthy s hs), newError_str]
  · intro fields v message hne hparse hfield hv hstr
    rw [hyes fields v hne hparse hfield hv]
    simp [newError, hstr]
  · intro fields v hne hparse hfield hv hstr
    rw [hyes fields v hne hparse hfield hv]
    simp [newError, hstr]
  · intro hne hparse
    exact hno hne (fun fields v hp => by rw [hparse] at hp; cases hp)
  · intro hempty
    simp [api, hempty, andProperty, Json.truthy, orString, newError, Json.toStr]

/-- Witness of C8 as amended: a 404 whose body carries the error `Not found`. -/
theorem api_failure_message_witness :
    api sampleRuntime (.ok ⟨false, notFoundBody⟩) = .error (.error "Not found") :=
  (api_failure_message sampleRuntime notFoundBody).2.1
    [("error", .str "Not found")] "Not found" (by decide) rfl rfl (by decide)

/-- Counterexample to C8 as stated, at two bodies. The first parses to an object
whose `error` field is present and is the empty string: the message of the error
is the raw text of the body, not that field. The second parses to an object
whose `error` field is present and truthy, an object with a `toString` key: what
is thrown is the `TypeError` of the conversion, not an error whose message is
the field. -/
theorem api_error_field_not_message :
    (sampleRuntime.jsonParse emptyErrorBody = some (.obj [("error", .str "")]) ∧
     Json.error (.obj [("error", .str "")]) = some (.str "") ∧
     api sampleRuntime (.ok ⟨false, emptyErrorBody⟩) = .error (.error emptyErrorBody) ∧
     api sampleRuntime (.ok ⟨false, emptyErrorBody⟩) ≠ .error (.error "")) ∧
    (sampleRuntime.jsonParse unprintableErrorBody =
       some (.obj [("error", .obj [("toString", .num "1")])]) ∧
     Json.error (.obj [("error", .obj [("toString", .num "1")])]) =
       some (.obj [("toString", .num "1")]) ∧
     (Json.obj [("toString", .num "1")]).truthy = true ∧
     api sampleRuntime (.ok ⟨false, unprintableErrorBody⟩) = .error .typeError ∧
     ∀ message, api sampleRuntime (.ok ⟨false, unprintableErrorBody⟩) ≠
       .error (.error message)) := by
  have h1 : api sampleRuntime (.ok ⟨false, emptyErrorBody⟩) =
      .error (.error emptyErrorBody) := rfl
  have h2 : api sampleRuntime (.ok ⟨false, unprintableErrorBody⟩) =
      .error .typeError := rfl
  refine ⟨⟨rfl, rfl, h1, ?_⟩, ⟨rfl, rfl, rfl, h2, ?_⟩⟩
  · intro h
    rw [h1] at h
    injection h with h
    injection h with h
    exact absurd h (by decide)
  · intro message h
    rw [h2] at h
    cases h

end EquipmentEllie
